import Mathlib

/-!
Shallow embedding of the workflow-automation backend
(`src/db/models.py`, `src/core/database_service.py`,
`src/cache/redis_cache.py`, `src/api/grpc/execution_service.py`,
`src/api/grpc/execution/ray_executor.py`,
`src/api/grpc/execution/redis_queue.py`).

Pure data is embedded as Lean structures, the stateful service layer as
explicit state passing over a `ServiceState` (database rows plus the Redis
cache contents), and the three execution backends as functions that return
the dispatch trace together with the overall success flag.  Task bodies are
simulated sleeps in the source; whether such a unit of work completes
without raising is abstracted by an oracle `outcome : Task → Bool`.
-/

namespace Wfb

/-- `TaskType` from `src/db/models.py`: SYNC runs sequentially, ASYNC is
fire-and-forget. -/
inductive TaskType where
  | sync
  | async
deriving DecidableEq, Repr

/-- `WorkflowStatus` from `src/db/models.py`. -/
inductive WorkflowStatus where
  | pending
  | in_progress
  | completed
  | failed
deriving DecidableEq, Repr

/-- `Task` row from `src/db/models.py` (`TaskBase` + table fields).
`parameters` is the JSON dict; the executors consult only the numeric
value under the key given to `.get`, so it is embedded as a string-keyed
association list of naturals. -/
structure Task where
  id : Nat
  workflow_id : Nat
  name : String
  order : Int
  execution_type : TaskType
  parameters : List (String × Nat)
deriving DecidableEq, Repr

/-- `Workflow` row from `src/db/models.py` (scalar columns; the `tasks`
relationship is recovered from the task table, ordered by `Task.order`). -/
structure WorkflowRow where
  id : Nat
  name : String
  description : Option String
deriving DecidableEq, Repr

/-- `WorkflowExecution` row from `src/db/models.py`.  Timestamps are a
logical clock (`Nat`). -/
structure ExecutionRow where
  id : Nat
  workflow_id : Nat
  status : WorkflowStatus
  started_at : Nat
  completed_at : Option Nat
deriving DecidableEq, Repr

/-- The relational store: the three tables plus fresh primary keys and a
logical clock standing for `datetime.now()`. -/
structure DB where
  workflows : List WorkflowRow
  tasks : List Task
  executions : List ExecutionRow
  nextExecId : Nat
  nextTaskId : Nat
  now : Nat
deriving DecidableEq, Repr

/-- `self.db.get(Workflow, workflow_id)`. -/
def lookupWf (db : DB) (wid : Nat) : Option WorkflowRow :=
  db.workflows.find? (fun w => w.id == wid)

/-- `self.db.get(WorkflowExecution, execution_id)`. -/
def lookupExec (db : DB) (eid : Nat) : Option ExecutionRow :=
  db.executions.find? (fun e => e.id == eid)

/-- Insert a task into a list sorted ascending by `order` (the effect of
the `order_by="Task.order"` relationship option in `src/db/models.py`). -/
def insertByOrder (t : Task) : List Task → List Task
  | [] => [t]
  | u :: us => if t.order ≤ u.order then t :: u :: us else u :: insertByOrder t us

/-- Sort a task list ascending by `order`. -/
def sortTasks (ts : List Task) : List Task :=
  ts.foldr insertByOrder []

/-- The `workflow.tasks` relationship: the workflow's tasks ordered
ascending by `Task.order`. -/
def wfTasks (db : DB) (wid : Nat) : List Task :=
  sortTasks (db.tasks.filter (fun t => t.workflow_id == wid))

/-- Ascending-by-`order` comparison between tasks. -/
def ordLE (a b : Task) : Prop := a.order ≤ b.order

theorem insertByOrder_mem (t : Task) (ts : List Task) (u : Task) :
    u ∈ insertByOrder t ts ↔ u = t ∨ u ∈ ts := by
  induction ts with
  | nil => simp [insertByOrder]
  | cons v vs ih =>
    by_cases h : t.order ≤ v.order
    · simp [insertByOrder, h]
    · simp [insertByOrder, h, ih]
      tauto

theorem insertByOrder_pairwise (t : Task) (ts : List Task)
    (h : ts.Pairwise ordLE) : (insertByOrder t ts).Pairwise ordLE := by
  induction ts with
  | nil => simp [insertByOrder]
  | cons v vs ih =>
    rcases List.pairwise_cons.mp h with ⟨hv, hvs⟩
    by_cases hle : t.order ≤ v.order
    · simp only [insertByOrder, if_pos hle]
      refine List.pairwise_cons.mpr ⟨?_, h⟩
      intro u hu
      rcases List.mem_cons.mp hu with rfl | hu
      · exact hle
      · exact le_trans hle (hv u hu)
    · simp only [insertByOrder, if_neg hle]
      refine List.pairwise_cons.mpr ⟨?_, ih hvs⟩
      intro u hu
      rcases (insertByOrder_mem t vs u).mp hu with rfl | hu
      · exact le_of_not_le hle
      · exact hv u hu

theorem sortTasks_pairwise (ts : List Task) : (sortTasks ts).Pairwise ordLE := by
  induction ts with
  | nil => simp [sortTasks]
  | cons t ts ih => exact insertByOrder_pairwise t _ ih

/-- `wfTasks` is always ascending by `order`. -/
theorem wfTasks_pairwise (db : DB) (wid : Nat) :
    (wfTasks db wid).Pairwise ordLE :=
  sortTasks_pairwise _

/-!
## The Redis cache (`src/cache/redis_cache.py`)

The service uses five disjoint families of string keys:

  * `workflow:{id}`                      — a workflow snapshot (with its
    tasks: the `selectin` relationship is serialized along),
  * `workflow:{id}:with_tasks`           — the with-tasks projection,
  * `workflows:list:{skip}:{limit}`      — workflow list pages,
  * `execution:{id}`                     — an execution snapshot,
  * `executions:list:{scope}:{skip}:{limit}` — execution list pages, where
    `scope` is `str(workflow_id)` for a truthy id and the literal `all`
    otherwise (`workflow_id or 'all'`).

No key of one family is ever equal to a key of another family, and the
glob patterns the service deletes (`workflows:list:*`, `executions:list:*`,
`executions:list:{wid}:*`) each match only keys within a single family, so
the key space is embedded structurally: one association list per family.
A plain `DEL workflow:{id}` touches only the `workflow:{id}` family — in
particular it does not touch `workflow:{id}:with_tasks`, exactly as Redis
deletes only the exact key. -/

/-- A cached workflow snapshot: the row plus its serialized task list. -/
structure WfSnapshot where
  row : WorkflowRow
  tasks : List Task
deriving DecidableEq, Repr

/-- Cache contents, split by key family (see the comment above). -/
structure Cache where
  wfEntries : List (Nat × WfSnapshot)
  wfTasksEntries : List (Nat × WfSnapshot)
  wfListEntries : List ((Nat × Nat) × List WfSnapshot)
  execEntries : List (Nat × ExecutionRow)
  execListEntries : List ((Option Nat × Nat × Nat) × List ExecutionRow)
deriving DecidableEq, Repr

def Cache.empty : Cache := ⟨[], [], [], [], []⟩

/-- Association-list read. -/
def alGet {K V : Type} [BEq K] (l : List (K × V)) (k : K) : Option V :=
  (l.find? (fun kv => kv.1 == k)).map (fun kv => kv.2)

/-- Association-list write (`SET` overwrites). -/
def alSet {K V : Type} [BEq K] (l : List (K × V)) (k : K) (v : V) :
    List (K × V) :=
  (k, v) :: l.filter (fun kv => !(kv.1 == k))

/-- Association-list delete (`DEL` of one exact key). -/
def alDel {K V : Type} [BEq K] (l : List (K × V)) (k : K) : List (K × V) :=
  l.filter (fun kv => !(kv.1 == k))

/-- Python truthiness of an optional integer (`if workflow_id:` treats both
`None` and `0` as false). -/
def pyTruthy : Option Nat → Bool
  | some k => k != 0
  | none => false

/-- The `scope` component of an `executions:list` key:
`str(workflow_id)` if truthy, else the literal `all` (encoded `none`). -/
def pyScope (wid : Option Nat) : Option Nat :=
  if pyTruthy wid then wid else none

/-!
## The database service (`src/core/database_service.py`)

Every operation is a function over `ServiceState` (tables + cache).
Operations that raise in Python (`ValueError`) return `Except.error` with
the Python message; the state component they return reflects exactly the
writes performed before the raise (none, for these operations). -/

structure ServiceState where
  db : DB
  cache : Cache
deriving DecidableEq, Repr

/-- `DatabaseService._invalidate_workflow_caches`: deletes the exact key
`workflow:{id}`, the pattern `workflows:list:*` and the pattern
`executions:list:{id}:*`.  (It does not delete
`workflow:{id}:with_tasks`.) -/
def invalidateWorkflowCaches (c : Cache) (wid : Nat) : Cache :=
  { c with
    wfEntries := alDel c.wfEntries wid
    wfListEntries := []
    execListEntries :=
      c.execListEntries.filter (fun kv => !(kv.1.1 == some wid)) }

/-- `DatabaseService._invalidate_execution_caches`: deletes the exact key
`execution:{id}` when a truthy execution id is given, then the pattern
`executions:list:*` unconditionally, then `executions:list:{wid}:*` when a
truthy workflow id is given. -/
def invalidateExecutionCaches (c : Cache) (widOpt eidOpt : Option Nat) :
    Cache :=
  let c1 :=
    match eidOpt with
    | some eid =>
      if eid != 0 then { c with execEntries := alDel c.execEntries eid }
      else c
    | none => c
  let c2 := { c1 with execListEntries := [] }
  match widOpt with
  | some wid =>
    if wid != 0 then
      { c2 with execListEntries :=
          c2.execListEntries.filter (fun kv => !(kv.1.1 == some wid)) }
    else c2
  | none => c2

/-- `DatabaseService.get_workflow`: cache-first read of `workflow:{id}`,
falling back to the database and populating the cache on a hit. -/
def get_workflow (st : ServiceState) (wid : Nat) :
    Option WfSnapshot × ServiceState :=
  match alGet st.cache.wfEntries wid with
  | some v => (some v, st)
  | none =>
    match lookupWf st.db wid with
    | some w =>
      let v : WfSnapshot := ⟨w, wfTasks st.db wid⟩
      (some v,
       { st with cache := { st.cache with
           wfEntries := alSet st.cache.wfEntries wid v } })
    | none => (none, st)

/-- `DatabaseService.get_workflow_with_tasks`: cache-first read of
`workflow:{id}:with_tasks`, falling back to `get_workflow` and caching a
non-`None` result under the with-tasks key. -/
def get_workflow_with_tasks (st : ServiceState) (wid : Nat) :
    Option WfSnapshot × ServiceState :=
  match alGet st.cache.wfTasksEntries wid with
  | some v => (some v, st)
  | none =>
    let (r, st1) := get_workflow st wid
    match r with
    | some v =>
      (some v,
       { st1 with cache := { st1.cache with
           wfTasksEntries := alSet st1.cache.wfTasksEntries wid v } })
    | none => (none, st1)

/-- The updatable columns handed to `update_workflow` (a field is applied
when the dictionary carries it, cf. the `hasattr`/`setattr` loop). -/
structure WorkflowPatch where
  name : Option String := none
  description : Option (Option String) := none
deriving DecidableEq, Repr

def applyWorkflowPatch (w : WorkflowRow) (p : WorkflowPatch) : WorkflowRow :=
  { w with
    name := p.name.getD w.name
    description := p.description.getD w.description }

/-- `DatabaseService.update_workflow`: direct DB read (no cache), field
update, commit, then `_invalidate_workflow_caches`. -/
def update_workflow (st : ServiceState) (wid : Nat) (p : WorkflowPatch) :
    Option WorkflowRow × ServiceState :=
  match lookupWf st.db wid with
  | none => (none, st)
  | some w =>
    let w' := applyWorkflowPatch w p
    let db' := { st.db with
      workflows := st.db.workflows.map (fun x => if x.id == wid then w' else x) }
    (some w', { db := db', cache := invalidateWorkflowCaches st.cache wid })

/-- `DatabaseService.delete_workflow`: direct DB read, cascade delete of the
workflow and its tasks, then `_invalidate_workflow_caches`. -/
def delete_workflow (st : ServiceState) (wid : Nat) :
    Bool × ServiceState :=
  match lookupWf st.db wid with
  | none => (false, st)
  | some _ =>
    let db' := { st.db with
      workflows := st.db.workflows.filter (fun x => !(x.id == wid))
      tasks := st.db.tasks.filter (fun t => !(t.workflow_id == wid)) }
    (true, { db := db', cache := invalidateWorkflowCaches st.cache wid })

/-- `TaskCreate` from `src/db/models.py` (equals `TaskBase`):
`execution_type` defaults to SYNC. -/
structure TaskCreate where
  name : String
  description : Option String := none
  order : Int
  execution_type : TaskType := TaskType.sync
  parameters : List (String × Nat) := []
deriving DecidableEq, Repr

/-- `DatabaseService.add_task`: direct DB read of the workflow (no cache);
`None` when absent; otherwise the task row is inserted with a fresh id and
`_invalidate_workflow_caches` runs.  No uniqueness check of `order` is
performed anywhere on this path. -/
def add_task (st : ServiceState) (wid : Nat) (tc : TaskCreate) :
    Option Task × ServiceState :=
  match lookupWf st.db wid with
  | none => (none, st)
  | some _ =>
    let t : Task :=
      { id := st.db.nextTaskId
        workflow_id := wid
        name := tc.name
        order := tc.order
        execution_type := tc.execution_type
        parameters := tc.parameters }
    let db' := { st.db with
      tasks := st.db.tasks ++ [t]
      nextTaskId := st.db.nextTaskId + 1 }
    (some t, { db := db', cache := invalidateWorkflowCaches st.cache wid })

/-- The updatable columns handed to `update_task`. -/
structure TaskPatch where
  name : Option String := none
  order : Option Int := none
  execution_type : Option TaskType := none
  parameters : Option (List (String × Nat)) := none
deriving DecidableEq, Repr

def applyTaskPatch (t : Task) (p : TaskPatch) : Task :=
  { t with
    name := p.name.getD t.name
    order := p.order.getD t.order
    execution_type := p.execution_type.getD t.execution_type
    parameters := p.parameters.getD t.parameters }

/-- `DatabaseService.update_task`: direct DB read of the task, field
update, commit, then `_invalidate_workflow_caches` on the task's
workflow. -/
def update_task (st : ServiceState) (tid : Nat) (p : TaskPatch) :
    Option Task × ServiceState :=
  match st.db.tasks.find? (fun t => t.id == tid) with
  | none => (none, st)
  | some t =>
    let t' := applyTaskPatch t p
    let db' := { st.db with
      tasks := st.db.tasks.map (fun x => if x.id == tid then t' else x) }
    (some t',
     { db := db', cache := invalidateWorkflowCaches st.cache t.workflow_id })

/-- `DatabaseService.delete_task`. -/
def delete_task (st : ServiceState) (tid : Nat) : Bool × ServiceState :=
  match st.db.tasks.find? (fun t => t.id == tid) with
  | none => (false, st)
  | some t =>
    let db' := { st.db with
      tasks := st.db.tasks.filter (fun x => !(x.id == tid)) }
    (true,
     { db := db', cache := invalidateWorkflowCaches st.cache t.workflow_id })

/-- `DatabaseService.get_execution`: cache-first read of
`execution:{id}`, falling back to the database and populating the cache on
a hit. -/
def get_execution (st : ServiceState) (eid : Nat) :
    Option ExecutionRow × ServiceState :=
  match alGet st.cache.execEntries eid with
  | some e => (some e, st)
  | none =>
    match lookupExec st.db eid with
    | some e =>
      (some e,
       { st with cache := { st.cache with
           execEntries := alSet st.cache.execEntries eid e } })
    | none => (none, st)

/-- `DatabaseService.list_executions`: cache-first read of the
`executions:list:{scope}:{skip}:{limit}` page, falling back to a filtered
database scan. -/
def list_executions (st : ServiceState) (widOpt : Option Nat)
    (skip limit : Nat) : List ExecutionRow × ServiceState :=
  let key := (pyScope widOpt, skip, limit)
  match alGet st.cache.execListEntries key with
  | some l => (l, st)
  | none =>
    let base :=
      if pyTruthy widOpt then
        st.db.executions.filter (fun e => some e.workflow_id == widOpt)
      else st.db.executions
    let page := (base.drop skip).take limit
    (page,
     { st with cache := { st.cache with
         execListEntries := alSet st.cache.execListEntries key page } })

/-- `DatabaseService.create_execution`: looks the workflow up through
`get_workflow` (cache-aware); raises `ValueError` when absent, otherwise
inserts a PENDING execution with a fresh id and invalidates the execution
list caches for that workflow. -/
def create_execution (st : ServiceState) (wid : Nat) :
    Except String ExecutionRow × ServiceState :=
  let (r, st1) := get_workflow st wid
  match r with
  | none =>
    (Except.error ("Workflow " ++ toString wid ++ " not found"), st1)
  | some _ =>
    let e : ExecutionRow :=
      { id := st1.db.nextExecId
        workflow_id := wid
        status := WorkflowStatus.pending
        started_at := st1.db.now
        completed_at := none }
    let db' := { st1.db with
      executions := st1.db.executions ++ [e]
      nextExecId := st1.db.nextExecId + 1 }
    (Except.ok e,
     { db := db'
       cache := invalidateExecutionCaches st1.cache (some wid) none })

/-- `status in [COMPLETED, FAILED]`. -/
def isTerminal (s : WorkflowStatus) : Bool :=
  s == WorkflowStatus.completed || s == WorkflowStatus.failed

/-- The record-level effect of `update_execution_status`: the status is
overwritten unconditionally; `completed_at` is stamped on a write of a
terminal status and left as-is otherwise (never cleared). -/
def updExecRecord (e : ExecutionRow) (s : WorkflowStatus) (now : Nat) :
    ExecutionRow :=
  { e with
    status := s
    completed_at := if isTerminal s then some now else e.completed_at }

/-- `DatabaseService.update_execution_status`: fetches the execution
through `get_execution` (cache-aware); raises `ValueError` when absent;
otherwise commits the record-level update and runs
`_invalidate_execution_caches(workflow_id, execution_id)`. -/
def update_execution_status (st : ServiceState) (eid : Nat)
    (s : WorkflowStatus) : Except String ExecutionRow × ServiceState :=
  let (r, st1) := get_execution st eid
  match r with
  | none =>
    (Except.error ("Workflow execution " ++ toString eid ++ " not found"),
     st1)
  | some e =>
    let e' := updExecRecord e s st1.db.now
    let db' := { st1.db with
      executions := st1.db.executions.map
        (fun x => if x.id == eid then e' else x) }
    (Except.ok e',
     { db := db'
       cache :=
         invalidateExecutionCaches st1.cache (some e.workflow_id) (some eid) })

/-!
## The execution backends

Task bodies are simulated sleeps; `outcome t` abstracts whether the unit
of work for `t` completes without raising.  Each loop returns the tasks it
dispatched (in dispatch order: a SYNC task is dispatched and awaited, an
ASYNC task is dispatched without waiting) and the overall success flag of
the driving path.  An ASYNC task's outcome is never consulted: the local
variant spawns `_execute_async_task` (which catches its own exceptions),
the queued variant submits to a thread pool and drops the future, the Ray
variant drops the object ref. -/

/-- The task loop of `WorkflowExecutionService._execute_sync`
(`src/api/grpc/execution_service.py`): SYNC tasks are awaited (the first
raise aborts the loop via the enclosing `try`), ASYNC tasks are spawned
with `asyncio.create_task` and not awaited. -/
def localLoop (outcome : Task → Bool) : List Task → List Task × Bool
  | [] => ([], true)
  | t :: ts =>
    match t.execution_type with
    | TaskType.sync =>
      if outcome t then
        let r := localLoop outcome ts
        (t :: r.1, r.2)
      else ([t], false)
    | TaskType.async =>
      let r := localLoop outcome ts
      (t :: r.1, r.2)

/-- The task loop of `RayExecutor.execute_workflow`
(`src/api/grpc/execution/ray_executor.py`): SYNC tasks block on
`ray.get` (a raise or falsy result returns `False` at once), ASYNC tasks
are submitted with `.remote` and their handle is dropped. -/
def rayLoop (outcome : Task → Bool) : List Task → List Task × Bool
  | [] => ([], true)
  | t :: ts =>
    match t.execution_type with
    | TaskType.sync =>
      if outcome t then
        let r := rayLoop outcome ts
        (t :: r.1, r.2)
      else ([t], false)
    | TaskType.async =>
      let r := rayLoop outcome ts
      (t :: r.1, r.2)

/-- The task loop of `process_workflow`
(`src/api/grpc/execution/redis_queue.py`): SYNC tasks run inline (a raise
aborts via the enclosing `try`), ASYNC tasks are submitted to a thread
pool without waiting. -/
def redisLoop (outcome : Task → Bool) : List Task → List Task × Bool
  | [] => ([], true)
  | t :: ts =>
    match t.execution_type with
    | TaskType.sync =>
      if outcome t then
        let r := redisLoop outcome ts
        (t :: r.1, r.2)
      else ([t], false)
    | TaskType.async =>
      let r := redisLoop outcome ts
      (t :: r.1, r.2)

/-- `WorkflowExecutionService._execute_sync`: fetches the workflow with
tasks (cache-aware); a missing workflow only logs and returns; otherwise
the loop runs and the execution is marked COMPLETED, any raise (a failed
SYNC task, or the COMPLETED update itself raising) landing in the
`except` that marks it FAILED.  Returns the final state and the dispatch
trace. -/
def executeSyncRun (st : ServiceState) (wid eid : Nat)
    (outcome : Task → Bool) : ServiceState × List Task :=
  let (r, st1) := get_workflow_with_tasks st wid
  match r with
  | none => (st1, [])
  | some v =>
    let (trace, ok) := localLoop outcome v.tasks
    if ok then
      match update_execution_status st1 eid WorkflowStatus.completed with
      | (Except.ok _, st2) => (st2, trace)
      | (Except.error _, st2) =>
        let (_, st3) := update_execution_status st2 eid WorkflowStatus.failed
        (st3, trace)
    else
      let (_, st2) := update_execution_status st1 eid WorkflowStatus.failed
      (st2, trace)

/-- `WorkflowExecutionService._execute_with_ray`: fetches the workflow
with tasks; a missing workflow only logs and returns; otherwise
`RayExecutor.execute_workflow` yields a success flag, which decides
COMPLETED vs FAILED; any raise lands in the bare `except` that marks the
execution FAILED. -/
def executeRayRun (st : ServiceState) (wid eid : Nat)
    (outcome : Task → Bool) : ServiceState × List Task :=
  let (r, st1) := get_workflow_with_tasks st wid
  match r with
  | none => (st1, [])
  | some v =>
    let (trace, success) := rayLoop outcome v.tasks
    let s := if success then WorkflowStatus.completed else WorkflowStatus.failed
    match update_execution_status st1 eid s with
    | (Except.ok _, st2) => (st2, trace)
    | (Except.error _, st2) =>
      let (_, st3) := update_execution_status st2 eid WorkflowStatus.failed
      (st3, trace)

/-- `process_workflow` (the RQ worker body,
`src/api/grpc/execution/redis_queue.py`): a missing workflow marks the
execution FAILED and returns `False`; otherwise the loop runs, success
marks COMPLETED and returns `True`; any raise (failed SYNC task, or a
raising status update) lands in the outer `except`, which attempts a
FAILED update (itself guarded) and returns `False`. -/
def processWorkflow (st : ServiceState) (wid eid : Nat)
    (outcome : Task → Bool) : (Bool × ServiceState) × List Task :=
  let (r, st1) := get_workflow_with_tasks st wid
  match r with
  | none =>
    match update_execution_status st1 eid WorkflowStatus.failed with
    | (Except.ok _, st2) => ((false, st2), [])
    | (Except.error _, st2) =>
      let (_, st3) := update_execution_status st2 eid WorkflowStatus.failed
      ((false, st3), [])
  | some v =>
    let (trace, ok) := redisLoop outcome v.tasks
    if ok then
      match update_execution_status st1 eid WorkflowStatus.completed with
      | (Except.ok _, st2) => ((true, st2), trace)
      | (Except.error _, st2) =>
        let (_, st3) := update_execution_status st2 eid WorkflowStatus.failed
        ((false, st3), trace)
    else
      let (_, st2) := update_execution_status st1 eid WorkflowStatus.failed
      ((false, st2), trace)

/-!
## The submission RPC (`WorkflowExecutionService.ExecuteWorkflow`)

The handler looks the workflow up, aborts NOT_FOUND when absent, creates
an execution (PENDING), advances it to IN_PROGRESS, and then either
enqueues the run (RQ) or spawns it (`asyncio.create_task` for the local
and Ray paths) — in every case without waiting — and returns the
execution id with status IN_PROGRESS.  The deferred backend invocation is
returned as a `PendingJob` value that the handler itself never runs; a
`ValueError` out of the store lands in the handler's `except` and aborts
INTERNAL. -/

inductive Backend where
  | localBackend
  | rq
  | ray
deriving DecidableEq, Repr

inductive GrpcError where
  | notFound
  | internal
deriving DecidableEq, Repr

structure SubmitResult where
  execution_id : Nat
  status : WorkflowStatus
deriving DecidableEq, Repr

structure PendingJob where
  backend : Backend
  workflow_id : Nat
  execution_id : Nat
deriving DecidableEq, Repr

def executeWorkflowRPC (st : ServiceState) (wid : Nat) (b : Backend) :
    Except GrpcError SubmitResult × ServiceState × Option PendingJob :=
  let (r, st1) := get_workflow_with_tasks st wid
  match r with
  | none => (Except.error GrpcError.notFound, st1, none)
  | some _ =>
    match create_execution st1 wid with
    | (Except.error _, st2) => (Except.error GrpcError.internal, st2, none)
    | (Except.ok e, st2) =>
      match update_execution_status st2 e.id WorkflowStatus.in_progress with
      | (Except.error _, st3) => (Except.error GrpcError.internal, st3, none)
      | (Except.ok _, st3) =>
        (Except.ok { execution_id := e.id, status := WorkflowStatus.in_progress },
         st3,
         some { backend := b, workflow_id := wid, execution_id := e.id })

/-!
## Basic lemmas about the embedded primitives
-/

theorem alGet_alDel_same {K V : Type} [BEq K] (l : List (K × V)) (k : K) :
    alGet (alDel l k) k = none := by
  have h : (alDel l k).find? (fun kv => kv.1 == k) = none := by
    rw [List.find?_eq_none]
    intro x hx
    have := (List.mem_filter.mp hx).2
    simpa using this
  simp [alGet, h]

theorem alGet_alSet_same {K V : Type} [BEq K] [LawfulBEq K]
    (l : List (K × V)) (k : K) (v : V) :
    alGet (alSet l k v) k = some v := by
  simp [alGet, alSet, List.find?]

theorem alGet_filter_get {K V : Type} [BEq K] (l : List (K × V))
    (p : K × V → Bool) (k : K) (vv : V)
    (h : alGet (l.filter p) k = some vv) :
    ∃ kv, kv ∈ l ∧ p kv = true ∧ kv.2 = vv := by
  simp only [alGet, Option.map_eq_some'] at h
  obtain ⟨kv, hfind, hv⟩ := h
  have hmem := List.mem_of_find?_eq_some hfind
  exact ⟨kv, (List.mem_filter.mp hmem).1, (List.mem_filter.mp hmem).2, hv⟩

/-- `find?` over a map that replaces exactly the rows matching the
predicate. -/
theorem find?_map_replace (l : List ExecutionRow) (eid : Nat)
    (e e' : ExecutionRow) (h : l.find? (fun x => x.id == eid) = some e)
    (hid : (e'.id == eid) = true) :
    (l.map (fun x => if x.id == eid then e' else x)).find?
        (fun x => x.id == eid) = some e' := by
  induction l with
  | nil => simp [List.find?] at h
  | cons x xs ih =>
    by_cases hx : (x.id == eid) = true
    · simp [List.find?, hx, hid]
    · have hx' : (x.id == eid) = false := by simpa using hx
      simp only [List.find?, hx'] at h
      simp only [List.map, List.find?, hx', if_neg (by simpa using hx)]
      simpa [hx'] using ih h

theorem find?_append_right (l₁ l₂ : List ExecutionRow)
    (p : ExecutionRow → Bool) (h : l₁.find? p = none) :
    (l₁ ++ l₂).find? p = l₂.find? p := by
  induction l₁ with
  | nil => simp
  | cons x xs ih =>
    simp only [List.find?] at h ⊢
    cases hx : p x with
    | true => simp [hx] at h
    | false =>
      rw [hx] at h
      simp only [List.cons_append, List.find?, hx]
      exact ih h

/-!
## Step lemmas for the service operations
-/

/-- `get_workflow_with_tasks`, both caches cold, workflow present: the
database row with its sorted tasks is returned and cached under both
keys. -/
theorem get_workflow_with_tasks_db (st : ServiceState) (wid : Nat)
    (w : WorkflowRow)
    (h1 : alGet st.cache.wfTasksEntries wid = none)
    (h2 : alGet st.cache.wfEntries wid = none)
    (hd : lookupWf st.db wid = some w) :
    get_workflow_with_tasks st wid =
      (some ⟨w, wfTasks st.db wid⟩,
       { st with cache := { st.cache with
           wfEntries :=
             alSet st.cache.wfEntries wid ⟨w, wfTasks st.db wid⟩
           wfTasksEntries :=
             alSet st.cache.wfTasksEntries wid ⟨w, wfTasks st.db wid⟩ } }) := by
  simp [get_workflow_with_tasks, get_workflow, h1, h2, hd]

/-- `get_workflow_with_tasks`, both caches cold, workflow absent: `None`
and no state change. -/
theorem get_workflow_with_tasks_missing (st : ServiceState) (wid : Nat)
    (h1 : alGet st.cache.wfTasksEntries wid = none)
    (h2 : alGet st.cache.wfEntries wid = none)
    (hd : lookupWf st.db wid = none) :
    get_workflow_with_tasks st wid = (none, st) := by
  simp [get_workflow_with_tasks, get_workflow, h1, h2, hd]

/-- `update_execution_status`, cache cold, row present: the record-level
update is committed and the caches are invalidated. -/
theorem update_execution_status_found (st : ServiceState) (eid : Nat)
    (e : ExecutionRow) (s : WorkflowStatus)
    (hc : alGet st.cache.execEntries eid = none)
    (hd : lookupExec st.db eid = some e) :
    update_execution_status st eid s =
      (Except.ok (updExecRecord e s st.db.now),
       { db :=
           { st.db with executions :=
               (st.db.executions.map (fun x =>
                 if x.id == eid then updExecRecord e s st.db.now else x)) }
         cache :=
           (invalidateExecutionCaches
             { st.cache with execEntries := alSet st.cache.execEntries eid e }
             (some e.workflow_id) (some eid)) }) := by
  simp [update_execution_status, get_execution, hc, hd]

/-!
## Lemmas about the dispatch loops
-/

/-- The dispatch trace is a sublist of the iterated task list (a prefix,
in fact: the loop never reorders or revisits). -/
theorem localLoop_trace_sublist (f : Task → Bool) (ts : List Task) :
    (localLoop f ts).1.Sublist ts := by
  induction ts with
  | nil => simp [localLoop]
  | cons t ts ih =>
    cases he : t.execution_type with
    | sync =>
      by_cases hf : f t
      · simpa [localLoop, he, hf] using List.Sublist.cons₂ t ih
      · simp [localLoop, he, hf]
    | async => simpa [localLoop, he] using List.Sublist.cons₂ t ih

theorem rayLoop_trace_sublist (f : Task → Bool) (ts : List Task) :
    (rayLoop f ts).1.Sublist ts := by
  induction ts with
  | nil => simp [rayLoop]
  | cons t ts ih =>
    cases he : t.execution_type with
    | sync =>
      by_cases hf : f t
      · simpa [rayLoop, he, hf] using List.Sublist.cons₂ t ih
      · simp [rayLoop, he, hf]
    | async => simpa [rayLoop, he] using List.Sublist.cons₂ t ih

theorem redisLoop_trace_sublist (f : Task → Bool) (ts : List Task) :
    (redisLoop f ts).1.Sublist ts := by
  induction ts with
  | nil => simp [redisLoop]
  | cons t ts ih =>
    cases he : t.execution_type with
    | sync =>
      by_cases hf : f t
      · simpa [redisLoop, he, hf] using List.Sublist.cons₂ t ih
      · simp [redisLoop, he, hf]
    | async => simpa [redisLoop, he] using List.Sublist.cons₂ t ih

/-- If an ascending task list contains a SYNC task whose unit of work
fails, the loop reports failure and every dispatched task's `order` is
bounded by the failing task's `order`. -/
theorem localLoop_fail_bound (f : Task → Bool) (ts : List Task) (t : Task)
    (hp : ts.Pairwise ordLE) (ht : t ∈ ts)
    (hsync : t.execution_type = TaskType.sync) (hf : f t = false) :
    (localLoop f ts).2 = false ∧
      ∀ u ∈ (localLoop f ts).1, u.order ≤ t.order := by
  induction ts with
  | nil => cases ht
  | cons v vs ih =>
    rcases List.pairwise_cons.mp hp with ⟨hv, hvs⟩
    rcases List.mem_cons.mp ht with rfl | htvs
    · -- the failing task is at the head
      simp [localLoop, hsync, hf]
    · have hvt : v.order ≤ t.order := hv t htvs
      have ihr := fun hp' => ih hp' htvs
      cases he : v.execution_type with
      | sync =>
        by_cases hfv : f v
        · have := ihr hvs
          simp only [localLoop, he, if_pos hfv]
          refine ⟨this.1, ?_⟩
          intro u hu
          rcases List.mem_cons.mp hu with rfl | hu
          · exact hvt
          · exact this.2 u hu
        · simp only [localLoop, he, if_neg hfv]
          refine ⟨trivial, ?_⟩
          intro u hu
          rcases List.mem_cons.mp hu with rfl | hu
          · exact hvt
          · cases hu
      | async =>
        have := ihr hvs
        simp only [localLoop, he]
        refine ⟨this.1, ?_⟩
        intro u hu
        rcases List.mem_cons.mp hu with rfl | hu
        · exact hvt
        · exact this.2 u hu

theorem rayLoop_fail_bound (f : Task → Bool) (ts : List Task) (t : Task)
    (hp : ts.Pairwise ordLE) (ht : t ∈ ts)
    (hsync : t.execution_type = TaskType.sync) (hf : f t = false) :
    (rayLoop f ts).2 = false ∧
      ∀ u ∈ (rayLoop f ts).1, u.order ≤ t.order := by
  induction ts with
  | nil => cases ht
  | cons v vs ih =>
    rcases List.pairwise_cons.mp hp with ⟨hv, hvs⟩
    rcases List.mem_cons.mp ht with rfl | htvs
    · simp [rayLoop, hsync, hf]
    · have hvt : v.order ≤ t.order := hv t htvs
      have ihr := fun hp' => ih hp' htvs
      cases he : v.execution_type with
      | sync =>
        by_cases hfv : f v
        · have := ihr hvs
          simp only [rayLoop, he, if_pos hfv]
          refine ⟨this.1, ?_⟩
          intro u hu
          rcases List.mem_cons.mp hu with rfl | hu
          · exact hvt
          · exact this.2 u hu
        · simp only [rayLoop, he, if_neg hfv]
          refine ⟨trivial, ?_⟩
          intro u hu
          rcases List.mem_cons.mp hu with rfl | hu
          · exact hvt
          · cases hu
      | async =>
        have := ihr hvs
        simp only [rayLoop, he]
        refine ⟨this.1, ?_⟩
        intro u hu
        rcases List.mem_cons.mp hu with rfl | hu
        · exact hvt
        · exact this.2 u hu

theorem redisLoop_fail_bound (f : Task → Bool) (ts : List Task) (t : Task)
    (hp : ts.Pairwise ordLE) (ht : t ∈ ts)
    (hsync : t.execution_type = TaskType.sync) (hf : f t = false) :
    (redisLoop f ts).2 = false ∧
      ∀ u ∈ (redisLoop f ts).1, u.order ≤ t.order := by
  induction ts with
  | nil => cases ht
  | cons v vs ih =>
    rcases List.pairwise_cons.mp hp with ⟨hv, hvs⟩
    rcases List.mem_cons.mp ht with rfl | htvs
    · simp [redisLoop, hsync, hf]
    · have hvt : v.order ≤ t.order := hv t htvs
      have ihr := fun hp' => ih hp' htvs
      cases he : v.execution_type with
      | sync =>
        by_cases hfv : f v
        · have := ihr hvs
          simp only [redisLoop, he, if_pos hfv]
          refine ⟨this.1, ?_⟩
          intro u hu
          rcases List.mem_cons.mp hu with rfl | hu
          · exact hvt
          · exact this.2 u hu
        · simp only [redisLoop, he, if_neg hfv]
          refine ⟨trivial, ?_⟩
          intro u hu
          rcases List.mem_cons.mp hu with rfl | hu
          · exact hvt
          · cases hu
      | async =>
        have := ihr hvs
        simp only [redisLoop, he]
        refine ⟨this.1, ?_⟩
        intro u hu
        rcases List.mem_cons.mp hu with rfl | hu
        · exact hvt
        · exact this.2 u hu

/-- Two oracles that agree on every SYNC task drive the loop to the same
trace and the same success flag: an ASYNC task's outcome is never
consulted. -/
theorem localLoop_congr (f g : Task → Bool)
    (h : ∀ t, t.execution_type = TaskType.sync → f t = g t)
    (ts : List Task) : localLoop f ts = localLoop g ts := by
  induction ts with
  | nil => rfl
  | cons t ts ih =>
    cases he : t.execution_type with
    | sync => simp [localLoop, he, h t he, ih]
    | async => simp [localLoop, he, ih]

theorem rayLoop_congr (f g : Task → Bool)
    (h : ∀ t, t.execution_type = TaskType.sync → f t = g t)
    (ts : List Task) : rayLoop f ts = rayLoop g ts := by
  induction ts with
  | nil => rfl
  | cons t ts ih =>
    cases he : t.execution_type with
    | sync => simp [rayLoop, he, h t he, ih]
    | async => simp [rayLoop, he, ih]

theorem redisLoop_congr (f g : Task → Bool)
    (h : ∀ t, t.execution_type = TaskType.sync → f t = g t)
    (ts : List Task) : redisLoop f ts = redisLoop g ts := by
  induction ts with
  | nil => rfl
  | cons t ts ih =>
    cases he : t.execution_type with
    | sync => simp [redisLoop, he, h t he, ih]
    | async => simp [redisLoop, he, ih]

/-- The trace a full local run produces. -/
theorem executeSyncRun_trace (st : ServiceState) (wid eid : Nat)
    (f : Task → Bool) :
    (executeSyncRun st wid eid f).2 =
      (match (get_workflow_with_tasks st wid).1 with
       | none => []
       | some v => (localLoop f v.tasks).1) := by
  unfold executeSyncRun
  rcases hg : get_workflow_with_tasks st wid with ⟨r, st1⟩
  cases r with
  | none => simp
  | some v =>
    simp only
    rcases hl : localLoop f v.tasks with ⟨trace, ok⟩
    cases ok
    · simp
    · rcases hu : update_execution_status st1 eid WorkflowStatus.completed
        with ⟨res, st2⟩
      cases res <;> simp [hu]

/-- The trace a full Ray run produces. -/
theorem executeRayRun_trace (st : ServiceState) (wid eid : Nat)
    (f : Task → Bool) :
    (executeRayRun st wid eid f).2 =
      (match (get_workflow_with_tasks st wid).1 with
       | none => []
       | some v => (rayLoop f v.tasks).1) := by
  unfold executeRayRun
  rcases hg : get_workflow_with_tasks st wid with ⟨r, st1⟩
  cases r with
  | none => simp
  | some v =>
    simp only
    rcases hl : rayLoop f v.tasks with ⟨trace, success⟩
    rcases hu : update_execution_status st1 eid
        (if success then WorkflowStatus.completed else WorkflowStatus.failed)
      with ⟨res, st2⟩
    cases res <;> simp [hu]

/-- The trace a full queued-worker run produces. -/
theorem processWorkflow_trace (st : ServiceState) (wid eid : Nat)
    (f : Task → Bool) :
    (processWorkflow st wid eid f).2 =
      (match (get_workflow_with_tasks st wid).1 with
       | none => []
       | some v => (redisLoop f v.tasks).1) := by
  unfold processWorkflow
  rcases hg : get_workflow_with_tasks st wid with ⟨r, st1⟩
  cases r with
  | none =>
    simp only
    rcases hu : update_execution_status st1 eid WorkflowStatus.failed
      with ⟨res, st2⟩
    cases res <;> simp [hu]
  | some v =>
    simp only
    rcases hl : redisLoop f v.tasks with ⟨trace, ok⟩
    cases ok
    · simp
    · rcases hu : update_execution_status st1 eid WorkflowStatus.completed
        with ⟨res, st2⟩
      cases res <;> simp [hu]

/-- `update_execution_status`, cache cold, row absent: `ValueError` and no
state change. -/
theorem update_execution_status_missing (st : ServiceState) (eid : Nat)
    (s : WorkflowStatus)
    (hc : alGet st.cache.execEntries eid = none)
    (hd : lookupExec st.db eid = none) :
    update_execution_status st eid s =
      (Except.error ("Workflow execution " ++ toString eid ++ " not found"),
       st) := by
  simp [update_execution_status, get_execution, hc, hd]

/-- After a successful `update_execution_status`, the stored row is the
record-level update of the fetched row. -/
theorem lookupExec_beq {db : DB} {eid : Nat} {e : ExecutionRow}
    (h : lookupExec db eid = some e) : (e.id == eid) = true := by
  have h' : db.executions.find? (fun x => x.id == eid) = some e := h
  have h2 := List.find?_some h'
  simpa using h2

theorem lookupExec_after_update (st : ServiceState) (eid : Nat)
    (e : ExecutionRow) (s : WorkflowStatus)
    (hc : alGet st.cache.execEntries eid = none)
    (hd : lookupExec st.db eid = some e) :
    lookupExec (update_execution_status st eid s).2.db eid =
      some (updExecRecord e s st.db.now) := by
  rw [update_execution_status_found st eid e s hc hd]
  have h' : (st.db.executions.map (fun x =>
      if x.id == eid then updExecRecord e s st.db.now else x)).find?
        (fun x => x.id == eid) = some (updExecRecord e s st.db.now) :=
    find?_map_replace st.db.executions eid e _ hd
      (show ((updExecRecord e s st.db.now).id == eid) = true from
        @lookupExec_beq st.db eid e hd)
  exact h'

/-!
## Claim theorems
-/

/-- C1: for every workflow and every backend variant (local asyncio,
Redis-queue worker, Ray), the tasks of one workflow run are dispatched in
ascending `order`: the dispatch trace of each backend is pairwise
ascending by `order`, so whenever task A has a smaller `order` than task B
in the same run, A is dispatched before B.  (The workflow is read through
`get_workflow_with_tasks`; the hypotheses state that the run starts with
cold cache keys for this workflow, so the task list is the database's,
sorted by the `order_by="Task.order"` relationship.) -/
theorem C1_dispatch_order_ascending (st : ServiceState) (wid eid : Nat)
    (outcome : Task → Bool)
    (h1 : alGet st.cache.wfTasksEntries wid = none)
    (h2 : alGet st.cache.wfEntries wid = none) :
    (executeSyncRun st wid eid outcome).2.Pairwise ordLE ∧
      (executeRayRun st wid eid outcome).2.Pairwise ordLE ∧
      (processWorkflow st wid eid outcome).2.Pairwise ordLE := by
  cases hd : lookupWf st.db wid with
  | none =>
    have hg := get_workflow_with_tasks_missing st wid h1 h2 hd
    refine ⟨?_, ?_, ?_⟩
    · rw [executeSyncRun_trace, hg]; exact List.Pairwise.nil
    · rw [executeRayRun_trace, hg]; exact List.Pairwise.nil
    · rw [processWorkflow_trace, hg]; exact List.Pairwise.nil
  | some w =>
    have hg := get_workflow_with_tasks_db st wid w h1 h2 hd
    have hp := wfTasks_pairwise st.db wid
    refine ⟨?_, ?_, ?_⟩
    · rw [executeSyncRun_trace, hg]
      exact hp.sublist (localLoop_trace_sublist outcome _)
    · rw [executeRayRun_trace, hg]
      exact hp.sublist (rayLoop_trace_sublist outcome _)
    · rw [processWorkflow_trace, hg]
      exact hp.sublist (redisLoop_trace_sublist outcome _)

/-- A concrete service state with one workflow (id 1) holding three tasks
with unsorted insertion order, one execution (id 1, IN_PROGRESS), and a
cold cache. -/
def c1State : ServiceState :=
  { db :=
      { workflows := [⟨1, "wf", none⟩]
        tasks :=
          [⟨11, 1, "t-b", 2, TaskType.sync, []⟩,
           ⟨12, 1, "t-a", 1, TaskType.async, []⟩,
           ⟨13, 1, "t-c", 3, TaskType.sync, []⟩]
        executions := [⟨1, 1, WorkflowStatus.in_progress, 0, none⟩]
        nextExecId := 2
        nextTaskId := 14
        now := 7 }
    cache := Cache.empty }

/-- A failing SYNC run, local variant: the execution ends FAILED. -/
theorem executeSyncRun_fail_lookup (st st1 : ServiceState) (wid eid : Nat)
    (f : Task → Bool) (v : WfSnapshot) (e : ExecutionRow)
    (hg : get_workflow_with_tasks st wid = (some v, st1))
    (hloop : (localLoop f v.tasks).2 = false)
    (hce : alGet st1.cache.execEntries eid = none)
    (hde : lookupExec st1.db eid = some e) :
    lookupExec (executeSyncRun st wid eid f).1.db eid =
      some (updExecRecord e WorkflowStatus.failed st1.db.now) := by
  unfold executeSyncRun
  rw [hg]
  simp only
  rcases hl : localLoop f v.tasks with ⟨trace, ok⟩
  rw [hl] at hloop
  simp only at hloop
  subst hloop
  simp only [Bool.false_eq_true, if_false]
  exact lookupExec_after_update st1 eid e WorkflowStatus.failed hce hde

/-- A failing SYNC run, Ray variant: the execution ends FAILED. -/
theorem executeRayRun_fail_lookup (st st1 : ServiceState) (wid eid : Nat)
    (f : Task → Bool) (v : WfSnapshot) (e : ExecutionRow)
    (hg : get_workflow_with_tasks st wid = (some v, st1))
    (hloop : (rayLoop f v.tasks).2 = false)
    (hce : alGet st1.cache.execEntries eid = none)
    (hde : lookupExec st1.db eid = some e) :
    lookupExec (executeRayRun st wid eid f).1.db eid =
      some (updExecRecord e WorkflowStatus.failed st1.db.now) := by
  unfold executeRayRun
  rw [hg]
  simp only
  rcases hl : rayLoop f v.tasks with ⟨trace, ok⟩
  rw [hl] at hloop
  simp only at hloop
  subst hloop
  simp only [Bool.false_eq_true, if_false]
  rw [update_execution_status_found st1 eid e WorkflowStatus.failed hce hde]
  simp only
  have h' : (st1.db.executions.map (fun x =>
      if x.id == eid then updExecRecord e WorkflowStatus.failed st1.db.now
      else x)).find? (fun x => x.id == eid) =
        some (updExecRecord e WorkflowStatus.failed st1.db.now) :=
    find?_map_replace st1.db.executions eid e _ hde
      (show ((updExecRecord e WorkflowStatus.failed st1.db.now).id == eid)
          = true from @lookupExec_beq st1.db eid e hde)
  exact h'

/-- A failing SYNC run, queued-worker variant: `False` is returned and the
execution ends FAILED. -/
theorem processWorkflow_fail_lookup (st st1 : ServiceState) (wid eid : Nat)
    (f : Task → Bool) (v : WfSnapshot) (e : ExecutionRow)
    (hg : get_workflow_with_tasks st wid = (some v, st1))
    (hloop : (redisLoop f v.tasks).2 = false)
    (hce : alGet st1.cache.execEntries eid = none)
    (hde : lookupExec st1.db eid = some e) :
    (processWorkflow st wid eid f).1.1 = false ∧
      lookupExec (processWorkflow st wid eid f).1.2.db eid =
        some (updExecRecord e WorkflowStatus.failed st1.db.now) := by
  unfold processWorkflow
  rw [hg]
  simp only
  rcases hl : redisLoop f v.tasks with ⟨trace, ok⟩
  rw [hl] at hloop
  simp only at hloop
  subst hloop
  simp only [Bool.false_eq_true, if_false]
  exact ⟨trivial, lookupExec_after_update st1 eid e WorkflowStatus.failed hce hde⟩

/-- C2: for every backend, if a SYNC task of the workflow fails, the
execution's terminal status is FAILED (`completed_at` stamped) and every
task the run dispatched has an `order` no larger than the failing task's
`order` — no task with a larger `order` is ever started. -/
theorem C2_sync_failure_is_failed_and_stops (st : ServiceState)
    (wid eid : Nat) (outcome : Task → Bool) (w : WorkflowRow)
    (e : ExecutionRow) (t : Task)
    (h1 : alGet st.cache.wfTasksEntries wid = none)
    (h2 : alGet st.cache.wfEntries wid = none)
    (hd : lookupWf st.db wid = some w)
    (hce : alGet st.cache.execEntries eid = none)
    (hde : lookupExec st.db eid = some e)
    (ht : t ∈ wfTasks st.db wid)
    (hsync : t.execution_type = TaskType.sync)
    (hf : outcome t = false) :
    (lookupExec (executeSyncRun st wid eid outcome).1.db eid =
        some (updExecRecord e WorkflowStatus.failed st.db.now) ∧
      ∀ u ∈ (executeSyncRun st wid eid outcome).2, u.order ≤ t.order) ∧
    (lookupExec (executeRayRun st wid eid outcome).1.db eid =
        some (updExecRecord e WorkflowStatus.failed st.db.now) ∧
      ∀ u ∈ (executeRayRun st wid eid outcome).2, u.order ≤ t.order) ∧
    ((processWorkflow st wid eid outcome).1.1 = false ∧
      lookupExec (processWorkflow st wid eid outcome).1.2.db eid =
        some (updExecRecord e WorkflowStatus.failed st.db.now) ∧
      ∀ u ∈ (processWorkflow st wid eid outcome).2, u.order ≤ t.order) := by
  have hg := get_workflow_with_tasks_db st wid w h1 h2 hd
  have hp := wfTasks_pairwise st.db wid
  refine ⟨⟨?_, ?_⟩, ⟨?_, ?_⟩, ?_⟩
  · exact executeSyncRun_fail_lookup st
      ({ st with cache := { st.cache with
          wfEntries := alSet st.cache.wfEntries wid ⟨w, wfTasks st.db wid⟩
          wfTasksEntries :=
            alSet st.cache.wfTasksEntries wid ⟨w, wfTasks st.db wid⟩ } })
      wid eid outcome ⟨w, wfTasks st.db wid⟩ e hg
      (localLoop_fail_bound outcome (wfTasks st.db wid) t hp ht hsync hf).1
      hce hde
  · rw [executeSyncRun_trace, hg]
    exact (localLoop_fail_bound outcome (wfTasks st.db wid) t hp ht hsync hf).2
  · exact executeRayRun_fail_lookup st
      ({ st with cache := { st.cache with
          wfEntries := alSet st.cache.wfEntries wid ⟨w, wfTasks st.db wid⟩
          wfTasksEntries :=
            alSet st.cache.wfTasksEntries wid ⟨w, wfTasks st.db wid⟩ } })
      wid eid outcome ⟨w, wfTasks st.db wid⟩ e hg
      (rayLoop_fail_bound outcome (wfTasks st.db wid) t hp ht hsync hf).1
      hce hde
  · rw [executeRayRun_trace, hg]
    exact (rayLoop_fail_bound outcome (wfTasks st.db wid) t hp ht hsync hf).2
  · have hmain := processWorkflow_fail_lookup st
      ({ st with cache := { st.cache with
          wfEntries := alSet st.cache.wfEntries wid ⟨w, wfTasks st.db wid⟩
          wfTasksEntries :=
            alSet st.cache.wfTasksEntries wid ⟨w, wfTasks st.db wid⟩ } })
      wid eid outcome ⟨w, wfTasks st.db wid⟩ e hg
      (redisLoop_fail_bound outcome (wfTasks st.db wid) t hp ht hsync hf).1
      hce hde
    refine ⟨hmain.1, hmain.2, ?_⟩
    rw [processWorkflow_trace, hg]
    exact (redisLoop_fail_bound outcome (wfTasks st.db wid) t hp ht hsync hf).2


/-- Concrete state for the C2 witness: workflow 1 with an ASYNC task of
`order` 1, a SYNC task of `order` 2 whose unit of work fails, and a SYNC
task of `order` 3; execution 1 is IN_PROGRESS; the cache is cold. -/
def c2State : ServiceState :=
  { db :=
      { workflows := [⟨1, "wf", none⟩]
        tasks :=
          [⟨11, 1, "b", 2, TaskType.sync, []⟩,
           ⟨12, 1, "a", 1, TaskType.async, []⟩,
           ⟨13, 1, "c", 3, TaskType.sync, []⟩]
        executions := [⟨1, 1, WorkflowStatus.in_progress, 0, none⟩]
        nextExecId := 2
        nextTaskId := 14
        now := 7 }
    cache := Cache.empty }

def c2FailTask : Task := ⟨11, 1, "b", 2, TaskType.sync, []⟩

def c2Outcome : Task → Bool := fun t => t.id != 11

theorem C2_sync_failure_is_failed_and_stops_witness :
    alGet c2State.cache.wfTasksEntries 1 = none ∧
      alGet c2State.cache.wfEntries 1 = none ∧
      lookupWf c2State.db 1 = some ⟨1, "wf", none⟩ ∧
      alGet c2State.cache.execEntries 1 = none ∧
      lookupExec c2State.db 1 =
        some ⟨1, 1, WorkflowStatus.in_progress, 0, none⟩ ∧
      c2FailTask ∈ wfTasks c2State.db 1 ∧
      c2FailTask.execution_type = TaskType.sync ∧
      c2Outcome c2FailTask = false ∧
      ((lookupExec (executeSyncRun c2State 1 1 c2Outcome).1.db 1 =
          some (updExecRecord ⟨1, 1, WorkflowStatus.in_progress, 0, none⟩
            WorkflowStatus.failed c2State.db.now) ∧
        ∀ u ∈ (executeSyncRun c2State 1 1 c2Outcome).2,
          u.order ≤ c2FailTask.order) ∧
      (lookupExec (executeRayRun c2State 1 1 c2Outcome).1.db 1 =
          some (updExecRecord ⟨1, 1, WorkflowStatus.in_progress, 0, none⟩
            WorkflowStatus.failed c2State.db.now) ∧
        ∀ u ∈ (executeRayRun c2State 1 1 c2Outcome).2,
          u.order ≤ c2FailTask.order) ∧
      ((processWorkflow c2State 1 1 c2Outcome).1.1 = false ∧
        lookupExec (processWorkflow c2State 1 1 c2Outcome).1.2.db 1 =
          some (updExecRecord ⟨1, 1, WorkflowStatus.in_progress, 0, none⟩
            WorkflowStatus.failed c2State.db.now) ∧
        ∀ u ∈ (processWorkflow c2State 1 1 c2Outcome).2,
          u.order ≤ c2FailTask.order)) :=
  ⟨rfl, rfl, rfl, rfl, rfl, by decide, rfl, rfl,
    C2_sync_failure_is_failed_and_stops c2State 1 1 c2Outcome
      ⟨1, "wf", none⟩ ⟨1, 1, WorkflowStatus.in_progress, 0, none⟩ c2FailTask
      rfl rfl rfl rfl rfl (by decide) rfl rfl⟩

theorem C1_dispatch_order_ascending_witness :
    alGet c1State.cache.wfTasksEntries 1 = none ∧
      alGet c1State.cache.wfEntries 1 = none ∧
      ((executeSyncRun c1State 1 1 (fun _ => true)).2.Pairwise ordLE ∧
        (executeRayRun c1State 1 1 (fun _ => true)).2.Pairwise ordLE ∧
        (processWorkflow c1State 1 1 (fun _ => true)).2.Pairwise ordLE) :=
  ⟨rfl, rfl, C1_dispatch_order_ascending c1State 1 1 (fun _ => true) rfl rfl⟩

/-- C4: the terminal status of every backend run is decided solely by the
SYNC-task scan.  Two outcome oracles that agree on every SYNC task produce
identical runs (same final state — hence the same terminal status — and
the same dispatch trace): the completion or failure of an ASYNC task is
never consulted, its handle never awaited or retrieved. -/
theorem C4_async_never_changes_terminal_status (st : ServiceState)
    (wid eid : Nat) (f g : Task → Bool)
    (h : ∀ t, t.execution_type = TaskType.sync → f t = g t) :
    executeSyncRun st wid eid f = executeSyncRun st wid eid g ∧
      executeRayRun st wid eid f = executeRayRun st wid eid g ∧
      processWorkflow st wid eid f = processWorkflow st wid eid g := by
  refine ⟨?_, ?_, ?_⟩
  · simp only [executeSyncRun, localLoop_congr f g h]
  · simp only [executeRayRun, rayLoop_congr f g h]
  · simp only [processWorkflow, redisLoop_congr f g h]

/-- Concrete state for the C4 witness (one ASYNC and two SYNC tasks). -/
def c4State : ServiceState :=
  { db :=
      { workflows := [⟨1, "wf", none⟩]
        tasks :=
          [⟨11, 1, "b", 2, TaskType.sync, []⟩,
           ⟨12, 1, "a", 1, TaskType.async, []⟩,
           ⟨13, 1, "c", 3, TaskType.sync, []⟩]
        executions := [⟨1, 1, WorkflowStatus.in_progress, 0, none⟩]
        nextExecId := 2
        nextTaskId := 14
        now := 7 }
    cache := Cache.empty }

/-- Every unit of work succeeds. -/
def c4OutcomeAll : Task → Bool := fun _ => true

/-- SYNC units succeed, ASYNC units fail. -/
def c4OutcomeSyncOnly : Task → Bool :=
  fun t => t.execution_type == TaskType.sync

theorem C4_async_never_changes_terminal_status_witness :
    (∀ t, t.execution_type = TaskType.sync →
        c4OutcomeAll t = c4OutcomeSyncOnly t) ∧
      (executeSyncRun c4State 1 1 c4OutcomeAll =
          executeSyncRun c4State 1 1 c4OutcomeSyncOnly ∧
        executeRayRun c4State 1 1 c4OutcomeAll =
          executeRayRun c4State 1 1 c4OutcomeSyncOnly ∧
        processWorkflow c4State 1 1 c4OutcomeAll =
          processWorkflow c4State 1 1 c4OutcomeSyncOnly) :=
  ⟨fun t ht => by simp [c4OutcomeAll, c4OutcomeSyncOnly, ht],
    C4_async_never_changes_terminal_status c4State 1 1
      c4OutcomeAll c4OutcomeSyncOnly
      (fun t ht => by simp [c4OutcomeAll, c4OutcomeSyncOnly, ht])⟩

/-- C6: when the workflow cannot be found at the time the backend actually
runs, the queued-worker variant (`process_workflow`) returns `False` and
actively marks the pre-created execution FAILED, while the local and Ray
variants return without touching any execution row (no record is advanced
by them; in particular none past PENDING for a workflow the service never
saw). -/
theorem C6_missing_workflow_at_dispatch (st : ServiceState) (wid eid : Nat)
    (outcome : Task → Bool) (e : ExecutionRow)
    (h1 : alGet st.cache.wfTasksEntries wid = none)
    (h2 : alGet st.cache.wfEntries wid = none)
    (hd : lookupWf st.db wid = none)
    (hce : alGet st.cache.execEntries eid = none)
    (hde : lookupExec st.db eid = some e) :
    ((processWorkflow st wid eid outcome).1.1 = false ∧
      lookupExec (processWorkflow st wid eid outcome).1.2.db eid =
        some (updExecRecord e WorkflowStatus.failed st.db.now)) ∧
    (executeSyncRun st wid eid outcome).1.db.executions =
      st.db.executions ∧
    (executeRayRun st wid eid outcome).1.db.executions =
      st.db.executions := by
  have hg := get_workflow_with_tasks_missing st wid h1 h2 hd
  refine ⟨?_, ?_, ?_⟩
  · unfold processWorkflow
    rw [hg]
    simp only
    rw [update_execution_status_found st eid e WorkflowStatus.failed hce hde]
    simp only
    refine ⟨trivial, ?_⟩
    have h' : (st.db.executions.map (fun x =>
        if x.id == eid then updExecRecord e WorkflowStatus.failed st.db.now
        else x)).find? (fun x => x.id == eid) =
          some (updExecRecord e WorkflowStatus.failed st.db.now) :=
      find?_map_replace st.db.executions eid e _ hde
        (show ((updExecRecord e WorkflowStatus.failed st.db.now).id == eid)
            = true from @lookupExec_beq st.db eid e hde)
    exact h'
  · unfold executeSyncRun
    rw [hg]
  · unfold executeRayRun
    rw [hg]

/-- Concrete state for the C6 witness: execution 1 exists, workflow 9 does
not. -/
def c6State : ServiceState :=
  { db :=
      { workflows := []
        tasks := []
        executions := [⟨1, 9, WorkflowStatus.in_progress, 0, none⟩]
        nextExecId := 2
        nextTaskId := 1
        now := 3 }
    cache := Cache.empty }

theorem C6_missing_workflow_at_dispatch_witness :
    alGet c6State.cache.wfTasksEntries 9 = none ∧
      alGet c6State.cache.wfEntries 9 = none ∧
      lookupWf c6State.db 9 = none ∧
      alGet c6State.cache.execEntries 1 = none ∧
      lookupExec c6State.db 1 =
        some ⟨1, 9, WorkflowStatus.in_progress, 0, none⟩ ∧
      (((processWorkflow c6State 9 1 (fun _ => true)).1.1 = false ∧
        lookupExec (processWorkflow c6State 9 1 (fun _ => true)).1.2.db 1 =
          some (updExecRecord ⟨1, 9, WorkflowStatus.in_progress, 0, none⟩
            WorkflowStatus.failed c6State.db.now)) ∧
      (executeSyncRun c6State 9 1 (fun _ => true)).1.db.executions =
        c6State.db.executions ∧
      (executeRayRun c6State 9 1 (fun _ => true)).1.db.executions =
        c6State.db.executions) :=
  ⟨rfl, rfl, rfl, rfl, rfl,
    C6_missing_workflow_at_dispatch c6State 9 1 (fun _ => true)
      ⟨1, 9, WorkflowStatus.in_progress, 0, none⟩ rfl rfl rfl rfl rfl⟩

/-- The `execEntries` family is untouched when
`_invalidate_execution_caches` is called without an execution id. -/
theorem invalidateExecutionCaches_execEntries_no_eid (c : Cache)
    (widOpt : Option Nat) :
    (invalidateExecutionCaches c widOpt none).execEntries = c.execEntries := by
  unfold invalidateExecutionCaches
  cases widOpt with
  | none => rfl
  | some wid =>
    by_cases h : (wid != 0) = true
    · simp [h]
    · simp [h]

/-- `create_execution` when `get_workflow` hits the cache: the PENDING
record is inserted with a fresh id and the execution-list caches for the
workflow are invalidated. -/
theorem create_execution_hit (st : ServiceState) (wid : Nat)
    (v : WfSnapshot) (hc : alGet st.cache.wfEntries wid = some v) :
    create_execution st wid =
      (Except.ok ⟨st.db.nextExecId, wid, WorkflowStatus.pending,
          st.db.now, none⟩,
       { db :=
           { st.db with
             executions := st.db.executions ++
               [⟨st.db.nextExecId, wid, WorkflowStatus.pending,
                 st.db.now, none⟩]
             nextExecId := st.db.nextExecId + 1 }
         cache := invalidateExecutionCaches st.cache (some wid) none }) := by
  simp [create_execution, get_workflow, hc]

theorem find?_snoc_fresh (l : List ExecutionRow) (e : ExecutionRow)
    (nid : Nat) (h : l.find? (fun x => x.id == nid) = none)
    (he : (e.id == nid) = true) :
    (l ++ [e]).find? (fun x => x.id == nid) = some e := by
  rw [find?_append_right l [e] _ h]
  simp [List.find?, he]

/-!
## Existential-form step lemmas (opaque intermediate states)
-/

theorem invalidateExecutionCaches_execListEntries (c : Cache)
    (widOpt eidOpt : Option Nat) :
    (invalidateExecutionCaches c widOpt eidOpt).execListEntries = [] := by
  unfold invalidateExecutionCaches
  cases eidOpt with
  | none =>
    cases widOpt with
    | none => rfl
    | some wid =>
      by_cases h : (wid != 0) = true
      · simp [h]
      · simp [h]
  | some eid =>
    by_cases he : (eid != 0) = true
    · cases widOpt with
      | none => simp [he]
      | some wid =>
        by_cases h : (wid != 0) = true
        · simp [he, h]
        · simp [he, h]
    · cases widOpt with
      | none => simp [he]
      | some wid =>
        by_cases h : (wid != 0) = true
        · simp [he, h]
        · simp [he, h]

theorem invalidateExecutionCaches_execEntries_some (c : Cache)
    (widOpt : Option Nat) (eid : Nat) (h0 : eid ≠ 0) :
    (invalidateExecutionCaches c widOpt (some eid)).execEntries =
      alDel c.execEntries eid := by
  unfold invalidateExecutionCaches
  have he : (eid != 0) = true := by simpa using h0
  cases widOpt with
  | none => simp [he]
  | some wid =>
    by_cases h : (wid != 0) = true
    · simp [he, h]
    · simp [he, h]

/-- `get_workflow_with_tasks` on a cold cache and a present workflow,
with the successor state kept opaque. -/
theorem get_workflow_with_tasks_found (st : ServiceState) (wid : Nat)
    (w : WorkflowRow)
    (h1 : alGet st.cache.wfTasksEntries wid = none)
    (h2 : alGet st.cache.wfEntries wid = none)
    (hd : lookupWf st.db wid = some w) :
    ∃ st1, get_workflow_with_tasks st wid =
        (some ⟨w, wfTasks st.db wid⟩, st1) ∧
      st1.db = st.db ∧
      st1.cache.execEntries = st.cache.execEntries ∧
      alGet st1.cache.wfEntries wid = some ⟨w, wfTasks st.db wid⟩ := by
  refine ⟨_, get_workflow_with_tasks_db st wid w h1 h2 hd, rfl, rfl, ?_⟩
  exact alGet_alSet_same st.cache.wfEntries wid ⟨w, wfTasks st.db wid⟩

/-- `create_execution` on a cache hit, with the successor state opaque. -/
theorem create_execution_found (st : ServiceState) (wid : Nat)
    (v : WfSnapshot) (hc : alGet st.cache.wfEntries wid = some v) :
    ∃ st2, create_execution st wid =
        (Except.ok (⟨st.db.nextExecId, wid, WorkflowStatus.pending,
          st.db.now, none⟩ : ExecutionRow), st2) ∧
      st2.db.executions = st.db.executions ++
        [⟨st.db.nextExecId, wid, WorkflowStatus.pending, st.db.now, none⟩] ∧
      st2.db.now = st.db.now ∧
      st2.cache.execEntries = st.cache.execEntries := by
  refine ⟨(create_execution st wid).2, ?_, ?_, ?_, ?_⟩
  · rw [create_execution_hit st wid v hc]
  · rw [create_execution_hit st wid v hc]
  · rw [create_execution_hit st wid v hc]
  · rw [create_execution_hit st wid v hc]
    exact invalidateExecutionCaches_execEntries_no_eid st.cache (some wid)

/-- `update_execution_status` on a cold cache and a present row, with the
successor state opaque. -/
theorem update_execution_status_ok (st : ServiceState) (eid : Nat)
    (e : ExecutionRow) (s : WorkflowStatus)
    (hc : alGet st.cache.execEntries eid = none)
    (hd : lookupExec st.db eid = some e) :
    ∃ st3, update_execution_status st eid s =
        (Except.ok (updExecRecord e s st.db.now), st3) ∧
      lookupExec st3.db eid = some (updExecRecord e s st.db.now) ∧
      st3.db.now = st.db.now ∧
      st3.cache.execListEntries = [] ∧
      (eid ≠ 0 → alGet st3.cache.execEntries eid = none) := by
  have hfound := update_execution_status_found st eid e s hc hd
  refine ⟨(update_execution_status st eid s).2, ?_,
    lookupExec_after_update st eid e s hc hd, ?_, ?_, ?_⟩
  · rw [hfound]
  · rw [hfound]
  · rw [hfound]
    exact invalidateExecutionCaches_execListEntries _ _ _
  · intro h0
    rw [hfound]
    have hrw := invalidateExecutionCaches_execEntries_some
      { st.cache with execEntries := alSet st.cache.execEntries eid e }
      (some e.workflow_id) eid h0
    rw [hrw]
    have h2 : alDel (alSet st.cache.execEntries eid e) eid =
        (alSet st.cache.execEntries eid e).filter
          (fun kv => !(kv.1 == eid)) := rfl
    exact alGet_alDel_same (alSet st.cache.execEntries eid e) eid

/-- C5: submission.  If the workflow id is unknown the call aborts
NOT_FOUND and the state is returned unchanged (no execution record is
created); otherwise the call creates a PENDING execution with the fresh
id, advances it to IN_PROGRESS, returns that id and IN_PROGRESS, and
hands back the selected backend invocation as a still-pending job — the
run has not been performed, and the stored execution is IN_PROGRESS with
no `completed_at`. -/
theorem C5_submission_contract (st : ServiceState) (wid : Nat) (b : Backend)
    (h1 : alGet st.cache.wfTasksEntries wid = none)
    (h2 : alGet st.cache.wfEntries wid = none)
    (hec : alGet st.cache.execEntries st.db.nextExecId = none)
    (hed : lookupExec st.db st.db.nextExecId = none) :
    (lookupWf st.db wid = none →
      executeWorkflowRPC st wid b =
        (Except.error GrpcError.notFound, st, none)) ∧
    (∀ w, lookupWf st.db wid = some w →
      (executeWorkflowRPC st wid b).1 =
          Except.ok ⟨st.db.nextExecId, WorkflowStatus.in_progress⟩ ∧
        (executeWorkflowRPC st wid b).2.2 =
          some ⟨b, wid, st.db.nextExecId⟩ ∧
        lookupExec (executeWorkflowRPC st wid b).2.1.db st.db.nextExecId =
          some ⟨st.db.nextExecId, wid, WorkflowStatus.in_progress,
            st.db.now, none⟩) := by
  constructor
  · intro hd
    unfold executeWorkflowRPC
    rw [get_workflow_with_tasks_missing st wid h1 h2 hd]
  · intro w hd
    obtain ⟨st1, hg, hdb1, hexec1, hwf1⟩ :=
      get_workflow_with_tasks_found st wid w h1 h2 hd
    obtain ⟨st2, hcr, hex2, hnow2, hexec2⟩ :=
      create_execution_found st1 wid ⟨w, wfTasks st.db wid⟩ hwf1
    rw [hdb1] at hcr hex2 hnow2
    have hc2 : alGet st2.cache.execEntries st.db.nextExecId = none := by
      rw [hexec2, hexec1]; exact hec
    have hd2 : lookupExec st2.db st.db.nextExecId =
        some ⟨st.db.nextExecId, wid, WorkflowStatus.pending,
          st.db.now, none⟩ := by
      have h' : st2.db.executions.find?
          (fun x => x.id == st.db.nextExecId) =
            some ⟨st.db.nextExecId, wid, WorkflowStatus.pending,
              st.db.now, none⟩ := by
        rw [hex2]
        exact find?_snoc_fresh st.db.executions _ st.db.nextExecId hed
          (by simp)
      exact h'
    obtain ⟨st3, hup, hlk, hnow3, _, _⟩ :=
      update_execution_status_ok st2 st.db.nextExecId
        ⟨st.db.nextExecId, wid, WorkflowStatus.pending, st.db.now, none⟩
        WorkflowStatus.in_progress hc2 hd2
    rw [hnow2] at hup hlk
    unfold executeWorkflowRPC
    rw [hg]
    simp only
    rw [hcr]
    simp only
    rw [hup]
    simp only
    exact ⟨trivial, trivial, hlk⟩

/-- Concrete state for the C5 witness. -/
def c5State : ServiceState :=
  { db :=
      { workflows := [⟨1, "wf", none⟩]
        tasks := [⟨11, 1, "a", 1, TaskType.sync, []⟩]
        executions := [⟨1, 1, WorkflowStatus.completed, 0, some 1⟩]
        nextExecId := 2
        nextTaskId := 12
        now := 7 }
    cache := Cache.empty }

theorem C5_submission_contract_witness :
    alGet c5State.cache.wfTasksEntries 1 = none ∧
      alGet c5State.cache.wfEntries 1 = none ∧
      alGet c5State.cache.execEntries c5State.db.nextExecId = none ∧
      lookupExec c5State.db c5State.db.nextExecId = none ∧
      ((lookupWf c5State.db 1 = none →
          executeWorkflowRPC c5State 1 Backend.localBackend =
            (Except.error GrpcError.notFound, c5State, none)) ∧
        (∀ w, lookupWf c5State.db 1 = some w →
          (executeWorkflowRPC c5State 1 Backend.localBackend).1 =
              Except.ok ⟨c5State.db.nextExecId, WorkflowStatus.in_progress⟩ ∧
            (executeWorkflowRPC c5State 1 Backend.localBackend).2.2 =
              some ⟨Backend.localBackend, 1, c5State.db.nextExecId⟩ ∧
            lookupExec (executeWorkflowRPC c5State 1 Backend.localBackend).2.1.db
                c5State.db.nextExecId =
              some ⟨c5State.db.nextExecId, 1, WorkflowStatus.in_progress,
                c5State.db.now, none⟩)) :=
  ⟨rfl, rfl, rfl, rfl,
    C5_submission_contract c5State 1 Backend.localBackend rfl rfl rfl rfl⟩

/-- A cold `execution:{id}` key sends `get_execution` to the database. -/
theorem get_execution_cold (st : ServiceState) (eid : Nat)
    (h : alGet st.cache.execEntries eid = none) :
    (get_execution st eid).1 = lookupExec st.db eid := by
  unfold get_execution
  rw [h]
  cases hdb : lookupExec st.db eid <;> simp [hdb]

/-- C8: after a successful `update_execution_status`, the cached
projection keyed by that execution id and every cached execution-list key
(all scopes, including "all executions") have been deleted; consequently
the next `get_execution` read goes to the database.  (`eid ≠ 0` because
SQL primary keys start at 1; a literal id 0 is Python-falsy and would
skip the exact-key delete.) -/
theorem C8_update_evicts_execution_caches (st : ServiceState) (eid : Nat)
    (s : WorkflowStatus) (er : ExecutionRow) (h0 : eid ≠ 0)
    (h : (update_execution_status st eid s).1 = Except.ok er) :
    alGet (update_execution_status st eid s).2.cache.execEntries eid =
        none ∧
      (update_execution_status st eid s).2.cache.execListEntries = [] ∧
      (∀ widOpt skip limit,
        alGet (update_execution_status st eid s).2.cache.execListEntries
          (pyScope widOpt, skip, limit) = none) ∧
      (get_execution (update_execution_status st eid s).2 eid).1 =
        lookupExec (update_execution_status st eid s).2.db eid := by
  unfold update_execution_status at h ⊢
  rcases hge : get_execution st eid with ⟨r, st1⟩
  rw [hge] at h
  cases r with
  | none => simp at h
  | some e =>
    simp only at h ⊢
    have h1 : alGet (invalidateExecutionCaches st1.cache
        (some e.workflow_id) (some eid)).execEntries eid = none := by
      rw [invalidateExecutionCaches_execEntries_some _ _ eid h0]
      exact alGet_alDel_same _ _
    refine ⟨h1, invalidateExecutionCaches_execListEntries _ _ _, ?_, ?_⟩
    · intro widOpt skip limit
      rw [invalidateExecutionCaches_execListEntries]
      rfl
    · exact get_execution_cold _ eid h1

/-- Concrete state for the C8 witness. -/
def c8State : ServiceState :=
  { db :=
      { workflows := [⟨1, "wf", none⟩]
        tasks := []
        executions := [⟨1, 1, WorkflowStatus.in_progress, 0, none⟩]
        nextExecId := 2
        nextTaskId := 1
        now := 4 }
    cache :=
      { wfEntries := []
        wfTasksEntries := []
        wfListEntries := []
        execEntries := [(1, ⟨1, 1, WorkflowStatus.in_progress, 0, none⟩)]
        execListEntries :=
          [((none, 0, 10), [⟨1, 1, WorkflowStatus.in_progress, 0, none⟩]),
           ((some 1, 0, 10), [⟨1, 1, WorkflowStatus.in_progress, 0, none⟩])] } }

theorem C8_update_evicts_execution_caches_witness :
    (1 : Nat) ≠ 0 ∧
      (update_execution_status c8State 1 WorkflowStatus.completed).1 =
        Except.ok ⟨1, 1, WorkflowStatus.completed, 0, some 4⟩ ∧
      (alGet (update_execution_status c8State 1
            WorkflowStatus.completed).2.cache.execEntries 1 = none ∧
        (update_execution_status c8State 1
            WorkflowStatus.completed).2.cache.execListEntries = [] ∧
        (∀ widOpt skip limit,
          alGet (update_execution_status c8State 1
              WorkflowStatus.completed).2.cache.execListEntries
            (pyScope widOpt, skip, limit) = none) ∧
        (get_execution (update_execution_status c8State 1
            WorkflowStatus.completed).2 1).1 =
          lookupExec (update_execution_status c8State 1
            WorkflowStatus.completed).2.db 1) :=
  ⟨by decide, rfl,
    C8_update_evicts_execution_caches c8State 1 WorkflowStatus.completed
      ⟨1, 1, WorkflowStatus.completed, 0, some 4⟩ (by decide) rfl⟩

/-- C10: the status store's mutating operations raise `ValueError` on
unknown ids and write nothing: `create_execution` with an unknown
workflow id and `update_execution_status` with an unknown execution id
each return the Python error and the unchanged state. -/
theorem C10_unknown_ids_raise_and_write_nothing (st : ServiceState)
    (wid eid : Nat) (s : WorkflowStatus)
    (hwc : alGet st.cache.wfEntries wid = none)
    (hwd : lookupWf st.db wid = none)
    (hec : alGet st.cache.execEntries eid = none)
    (hed : lookupExec st.db eid = none) :
    create_execution st wid =
        (Except.error ("Workflow " ++ toString wid ++ " not found"), st) ∧
      update_execution_status st eid s =
        (Except.error
          ("Workflow execution " ++ toString eid ++ " not found"), st) := by
  constructor
  · simp [create_execution, get_workflow, hwc, hwd]
  · exact update_execution_status_missing st eid s hec hed

/-- Concrete state for the C10 witness (no workflow 7, no execution 9). -/
def c10State : ServiceState :=
  { db :=
      { workflows := [⟨1, "wf", none⟩]
        tasks := []
        executions := [⟨1, 1, WorkflowStatus.pending, 0, none⟩]
        nextExecId := 2
        nextTaskId := 1
        now := 0 }
    cache := Cache.empty }

theorem C10_unknown_ids_raise_and_write_nothing_witness :
    alGet c10State.cache.wfEntries 7 = none ∧
      lookupWf c10State.db 7 = none ∧
      alGet c10State.cache.execEntries 9 = none ∧
      lookupExec c10State.db 9 = none ∧
      (create_execution c10State 7 =
          (Except.error ("Workflow " ++ toString 7 ++ " not found"),
           c10State) ∧
        update_execution_status c10State 9 WorkflowStatus.failed =
          (Except.error
            ("Workflow execution " ++ toString 9 ++ " not found"),
           c10State)) :=
  ⟨rfl, rfl, rfl, rfl,
    C10_unknown_ids_raise_and_write_nothing c10State 7 9
      WorkflowStatus.failed rfl rfl rfl rfl⟩

/-- Concrete state for C9: workflow 1 already holds a task with
`order` 1. -/
def c9State : ServiceState :=
  { db :=
      { workflows := [⟨1, "wf", none⟩]
        tasks := [⟨11, 1, "a", 1, TaskType.sync, []⟩]
        executions := []
        nextExecId := 1
        nextTaskId := 12
        now := 0 }
    cache := Cache.empty }

/-- C9 counterexample: adding a second task with the same `order` 1 to
workflow 1 is NOT rejected — `add_task` succeeds — and afterwards the
workflow's order values are `[1, 1]`, not pairwise distinct. -/
theorem C9_duplicate_order_accepted_counterexample :
    (add_task c9State 1
        { name := "b", order := 1 } : Option Task × ServiceState).1.isSome =
        true ∧
      ((wfTasks (add_task c9State 1
          { name := "b", order := 1 }).2.db 1).map Task.order) = [1, 1] :=
  ⟨rfl, rfl⟩

/-- C9 amended: `add_task` validates only the existence of the workflow
(`None` for an unknown id); it performs no uniqueness check on `order`,
so it succeeds for every payload — duplicate `order` values included —
appending the task verbatim. -/
theorem C9_add_task_no_order_validation (st : ServiceState) (wid : Nat)
    (tc : TaskCreate) :
    (lookupWf st.db wid = none → add_task st wid tc = (none, st)) ∧
      (∀ w, lookupWf st.db wid = some w →
        (add_task st wid tc).1 =
            some ⟨st.db.nextTaskId, wid, tc.name, tc.order,
              tc.execution_type, tc.parameters⟩ ∧
          (add_task st wid tc).2.db.tasks = st.db.tasks ++
            [⟨st.db.nextTaskId, wid, tc.name, tc.order,
              tc.execution_type, tc.parameters⟩]) := by
  constructor
  · intro hd
    simp [add_task, hd]
  · intro w hd
    refine ⟨?_, ?_⟩ <;> simp [add_task, hd]

theorem C9_add_task_no_order_validation_witness :
    (lookupWf c9State.db 1 = none →
        add_task c9State 1 { name := "b", order := 1 } = (none, c9State)) ∧
      (∀ w, lookupWf c9State.db 1 = some w →
        (add_task c9State 1 { name := "b", order := 1 }).1 =
            some ⟨c9State.db.nextTaskId, 1, "b", 1, TaskType.sync, []⟩ ∧
          (add_task c9State 1 { name := "b", order := 1 }).2.db.tasks =
            c9State.db.tasks ++
              [⟨c9State.db.nextTaskId, 1, "b", 1, TaskType.sync, []⟩]) :=
  C9_add_task_no_order_validation c9State 1 { name := "b", order := 1 }

/-- A sequence of `update_execution_status` calls against one execution
id (each call's returned state feeds the next call). -/
def runUpdates (st : ServiceState) (eid : Nat) :
    List WorkflowStatus → ServiceState
  | [] => st
  | s :: rest => runUpdates (update_execution_status st eid s).2 eid rest

/-- Invariant induction for `runUpdates`: starting from a non-terminal
record with no `completed_at`, and updating with statuses of which only
the last may be terminal, the final record satisfies the lifecycle
biconditional. -/
theorem runUpdates_lifecycle (eid : Nat) (h0 : eid ≠ 0) :
    ∀ (l : List WorkflowStatus) (st : ServiceState) (e : ExecutionRow),
      alGet st.cache.execEntries eid = none →
      lookupExec st.db eid = some e →
      isTerminal e.status = false →
      e.completed_at = none →
      (∀ x ∈ l.dropLast, isTerminal x = false) →
      ∃ e', lookupExec (runUpdates st eid l).db eid = some e' ∧
        (isTerminal e'.status = true ↔ e'.completed_at ≠ none) := by
  intro l
  induction l with
  | nil =>
    intro st e hc hd hterm hca _
    refine ⟨e, hd, ?_⟩
    rw [hterm, hca]
    simp
  | cons s rest ih =>
    intro st e hc hd hterm hca hmono
    obtain ⟨st3, hup, hlk, hnow, hlist, hcnone⟩ :=
      update_execution_status_ok st eid e s hc hd
    have hstep : runUpdates st eid (s :: rest) = runUpdates st3 eid rest := by
      simp [runUpdates, hup]
    rw [hstep]
    cases rest with
    | nil =>
      refine ⟨updExecRecord e s st.db.now, ?_, ?_⟩
      · simpa [runUpdates] using hlk
      · unfold updExecRecord
        by_cases hs : isTerminal s = true
        · simp [hs]
        · have hs' : isTerminal s = false := by simpa using hs
          simp [hs', hca]
    | cons s2 rest2 =>
      have hs : isTerminal s = false := by
        apply hmono s
        simp [List.dropLast]
      apply ih st3 (updExecRecord e s st.db.now) (hcnone h0) hlk
      · simpa [updExecRecord] using hs
      · simp [updExecRecord, hs, hca]
      · intro x hx
        apply hmono x
        simp [List.dropLast]
        right
        simpa using hx

/-- C3 amended: `update_execution_status` applies any requested status
unconditionally — it has no guard, so a call after a terminal status
overwrites it (terminal states are not final).  `completed_at` is stamped
exactly on writes of COMPLETED or FAILED and never cleared; therefore the
invariant "`completed_at` is present iff status is COMPLETED or FAILED"
holds on every state reached by update sequences in which no update
follows a terminal one. -/
theorem C3_lifecycle_holds_without_post_terminal_updates
    (st : ServiceState) (eid : Nat) (e : ExecutionRow)
    (l : List WorkflowStatus) (h0 : eid ≠ 0)
    (hc : alGet st.cache.execEntries eid = none)
    (hd : lookupExec st.db eid = some e)
    (hterm : isTerminal e.status = false)
    (hca : e.completed_at = none)
    (hmono : ∀ x ∈ l.dropLast, isTerminal x = false) :
    (∀ s, (update_execution_status st eid s).1 =
        Except.ok (updExecRecord e s st.db.now)) ∧
      ∃ e', lookupExec (runUpdates st eid l).db eid = some e' ∧
        (isTerminal e'.status = true ↔ e'.completed_at ≠ none) := by
  constructor
  · intro s
    rw [update_execution_status_found st eid e s hc hd]
  · exact runUpdates_lifecycle eid h0 l st e hc hd hterm hca hmono

/-- Concrete state for C3: execution 1 is PENDING with no
`completed_at`. -/
def c3State : ServiceState :=
  { db :=
      { workflows := [⟨1, "wf", none⟩]
        tasks := []
        executions := [⟨1, 1, WorkflowStatus.pending, 0, none⟩]
        nextExecId := 2
        nextTaskId := 1
        now := 9 }
    cache := Cache.empty }

/-- C3 counterexample: after `update_execution_status` reaches COMPLETED,
a further call is not rejected — it overwrites the terminal status with
IN_PROGRESS — and leaves `completed_at` set while the status is neither
COMPLETED nor FAILED, violating both halves of the claimed invariant. -/
theorem C3_terminal_overwritten_counterexample :
    (lookupExec (runUpdates c3State 1 [WorkflowStatus.completed]).db 1).map
        (fun e => e.status) = some WorkflowStatus.completed ∧
      (lookupExec (runUpdates c3State 1
          [WorkflowStatus.completed, WorkflowStatus.in_progress]).db 1).map
        (fun e => (e.status, e.completed_at.isSome)) =
        some (WorkflowStatus.in_progress, true) :=
  ⟨rfl, rfl⟩

theorem C3_lifecycle_holds_without_post_terminal_updates_witness :
    (1 : Nat) ≠ 0 ∧
      alGet c3State.cache.execEntries 1 = none ∧
      lookupExec c3State.db 1 =
        some ⟨1, 1, WorkflowStatus.pending, 0, none⟩ ∧
      isTerminal (⟨1, 1, WorkflowStatus.pending, 0, none⟩ :
        ExecutionRow).status = false ∧
      (∀ x ∈ ([WorkflowStatus.in_progress,
          WorkflowStatus.completed].dropLast), isTerminal x = false) ∧
      ((∀ s, (update_execution_status c3State 1 s).1 =
          Except.ok (updExecRecord
            ⟨1, 1, WorkflowStatus.pending, 0, none⟩ s c3State.db.now)) ∧
        ∃ e', lookupExec (runUpdates c3State 1
            [WorkflowStatus.in_progress,
              WorkflowStatus.completed]).db 1 = some e' ∧
          (isTerminal e'.status = true ↔ e'.completed_at ≠ none)) :=
  ⟨by decide, rfl, rfl, rfl, by decide,
    C3_lifecycle_holds_without_post_terminal_updates c3State 1
      ⟨1, 1, WorkflowStatus.pending, 0, none⟩
      [WorkflowStatus.in_progress, WorkflowStatus.completed]
      (by decide) rfl rfl rfl rfl (by decide)⟩

/-- Concrete state for C7: workflow 1 with name "a" and one task; cold
cache. -/
def c7State : ServiceState :=
  { db :=
      { workflows := [⟨1, "a", none⟩]
        tasks := [⟨11, 1, "t", 1, TaskType.sync, []⟩]
        executions := []
        nextExecId := 1
        nextTaskId := 12
        now := 0 }
    cache := Cache.empty }

/-- C7, at the failing input: read workflow 1 through
`get_workflow_with_tasks` (populating `workflow:1:with_tasks`), then
`update_workflow` renames it to "b" (running
`_invalidate_workflow_caches`), then read again.  The database holds "b"
and the plain `workflow:1` key was evicted, but the second
`get_workflow_with_tasks` still answers from `workflow:1:with_tasks`
and returns the pre-write value "a": `_invalidate_workflow_caches`
deletes only the exact key `workflow:1`, never
`workflow:1:with_tasks`. -/
theorem C7_with_tasks_key_not_evicted :
    ((get_workflow_with_tasks
        (update_workflow (get_workflow_with_tasks c7State 1).2 1
          { name := some "b" }).2 1).1.map
      (fun v => v.row.name)) = some "a" ∧
      (lookupWf (update_workflow (get_workflow_with_tasks c7State 1).2 1
          { name := some "b" }).2.db 1).map WorkflowRow.name = some "b" ∧
      alGet (update_workflow (get_workflow_with_tasks c7State 1).2 1
          { name := some "b" }).2.cache.wfEntries 1 = none ∧
      (alGet (update_workflow (get_workflow_with_tasks c7State 1).2 1
          { name := some "b" }).2.cache.wfTasksEntries 1).map
        (fun v => v.row.name) = some "a" :=
  ⟨rfl, rfl, rfl, rfl⟩

end Wfb